import Mathlib

/-
Verification of the rigid-body tree node (BodyNode) of the dart dynamics
library, dart/dynamics/BodyNode.cpp.  The embedding models scalars as
rationals, 3-vectors and spatial 6-vectors as component structures, the
6x6 generalized spatial inertia as a function matrix, and the external
Joint collaborator as a record of data fields plus abstract function
fields for the joint-specific operations the body calls.
-/

namespace Dart

/-- A 3-dimensional vector with rational components. -/
@[ext] structure V3 where
  x : ℚ
  y : ℚ
  z : ℚ
deriving DecidableEq

instance : Zero V3 := ⟨⟨0, 0, 0⟩⟩

instance : Add V3 := ⟨fun a b => ⟨a.x + b.x, a.y + b.y, a.z + b.z⟩⟩

instance : Neg V3 := ⟨fun a => ⟨-a.x, -a.y, -a.z⟩⟩

instance : Sub V3 := ⟨fun a b => ⟨a.x - b.x, a.y - b.y, a.z - b.z⟩⟩

/-- Component of a 3-vector selected by an index. -/
def V3.nth (v : V3) : Fin 3 → ℚ
  | 0 => v.x
  | 1 => v.y
  | 2 => v.z

/-- Euclidean dot product of two 3-vectors. -/
def dot3 (a b : V3) : ℚ := a.x * b.x + a.y * b.y + a.z * b.z

/-- Cross product of two 3-vectors. -/
def cross3 (a b : V3) : V3 :=
  ⟨a.y * b.z - a.z * b.y, a.z * b.x - a.x * b.z, a.x * b.y - a.y * b.x⟩

/-- A 3x3 matrix with rational entries, stored as three row vectors. -/
@[ext] structure M3 where
  r0 : V3
  r1 : V3
  r2 : V3
deriving DecidableEq

/-- Row of a 3x3 matrix selected by an index. -/
def M3.row (A : M3) : Fin 3 → V3
  | 0 => A.r0
  | 1 => A.r1
  | 2 => A.r2

/-- Entry of a 3x3 matrix. -/
def M3.entry (A : M3) (i j : Fin 3) : ℚ := (A.row i).nth j

/-- Matrix-vector product for 3x3 matrices. -/
def M3.mulV (A : M3) (v : V3) : V3 := ⟨dot3 A.r0 v, dot3 A.r1 v, dot3 A.r2 v⟩

/-- Transpose of a 3x3 matrix. -/
def M3.transposeM (A : M3) : M3 :=
  ⟨⟨A.r0.x, A.r1.x, A.r2.x⟩, ⟨A.r0.y, A.r1.y, A.r2.y⟩, ⟨A.r0.z, A.r1.z, A.r2.z⟩⟩

/-- Matrix-matrix product for 3x3 matrices. -/
def M3.mul (A B : M3) : M3 :=
  let Bt := B.transposeM
  ⟨⟨dot3 A.r0 Bt.r0, dot3 A.r0 Bt.r1, dot3 A.r0 Bt.r2⟩,
   ⟨dot3 A.r1 Bt.r0, dot3 A.r1 Bt.r1, dot3 A.r1 Bt.r2⟩,
   ⟨dot3 A.r2 Bt.r0, dot3 A.r2 Bt.r1, dot3 A.r2 Bt.r2⟩⟩

/-- The 3x3 identity matrix. -/
def identityM3 : M3 := ⟨⟨1, 0, 0⟩, ⟨0, 1, 0⟩, ⟨0, 0, 1⟩⟩

/-- The skew-symmetric cross-product matrix of a 3-vector. -/
def skewM (r : V3) : M3 :=
  ⟨⟨0, -r.z, r.y⟩, ⟨r.z, 0, -r.x⟩, ⟨-r.y, r.x, 0⟩⟩

/-- A spatial 6-vector: angular part followed by linear part. -/
@[ext] structure V6 where
  ang : V3
  lin : V3
deriving DecidableEq

instance : Zero V6 := ⟨⟨0, 0⟩⟩

instance : Add V6 := ⟨fun a b => ⟨a.ang + b.ang, a.lin + b.lin⟩⟩

instance : Neg V6 := ⟨fun a => ⟨-a.ang, -a.lin⟩⟩

instance : Sub V6 := ⟨fun a b => ⟨a.ang - b.ang, a.lin - b.lin⟩⟩

/-- Inner product of two spatial 6-vectors. -/
def dot6 (a b : V6) : ℚ := dot3 a.ang b.ang + dot3 a.lin b.lin

/-- A rigid transform: rotation block and translation vector. -/
structure Transform3 where
  linear : M3
  translation : V3
deriving DecidableEq

/-- The identity rigid transform. -/
def idTransform : Transform3 := ⟨identityM3, 0⟩

/-- Composition of rigid transforms: the rotation blocks multiply and the
translation is the first transform applied to the second's translation. -/
def compT (A B : Transform3) : Transform3 :=
  ⟨A.linear.mul B.linear, A.linear.mulV B.translation + A.translation⟩

/-- Application of the inverse of a rigid transform to a point: the
rotation inverse is the transpose. -/
def Transform3.invApply (T : Transform3) (p : V3) : V3 :=
  T.linear.transposeM.mulV (p - T.translation)

/-- A 6x6 matrix with rational entries, indexed by spatial coordinates
0..2 (angular) and 3..5 (linear). -/
abbrev Mat66 := Fin 6 → Fin 6 → ℚ

/-- The 6x6 identity matrix. -/
def identity66 : Mat66 := fun i j => if i = j then 1 else 0

/-- Spatial 6-vector read off as a function on indices. -/
def V6.nth (v : V6) : Fin 6 → ℚ
  | 0 => v.ang.x
  | 1 => v.ang.y
  | 2 => v.ang.z
  | 3 => v.lin.x
  | 4 => v.lin.y
  | 5 => v.lin.z

/-- 6x6 matrix applied to a spatial vector (matrix-vector product). -/
def applyI (A : Mat66) (v : V6) : V6 :=
  let f : Fin 6 → ℚ := fun i =>
    A i 0 * v.nth 0 + A i 1 * v.nth 1 + A i 2 * v.nth 2 +
    A i 3 * v.nth 3 + A i 4 * v.nth 4 + A i 5 * v.nth 5
  ⟨⟨f 0, f 1, f 2⟩, ⟨f 3, f 4, f 5⟩⟩

/-!  Spatial-algebra operators.  These are the external primitives the
spec lists (Ad/AdInv on twists, dAd/dAdInv on wrenches, the spatial cross
products); each is modelled from the spec's description of the adjoint
operators for the rigid transform representation above. -/

/-- Modelled from the spec: external primitive `Ad(T, V)`, transforming a
twist forward across a rigid transform. -/
def AdT (T : Transform3) (V : V6) : V6 :=
  let w := T.linear.mulV V.ang
  ⟨w, T.linear.mulV V.lin + cross3 T.translation w⟩

/-- Modelled from the spec: external primitive `AdInv(T, V)`, transforming
a twist backward across a rigid transform. -/
def AdInvT (T : Transform3) (V : V6) : V6 :=
  ⟨T.linear.transposeM.mulV V.ang,
   T.linear.transposeM.mulV (V.lin - cross3 T.translation V.ang)⟩

/-- Modelled from the spec: external primitive `dAdInv(T, F)`, transforming
a wrench across the inverse of a rigid transform. -/
def dAdInvT (T : Transform3) (F : V6) : V6 :=
  let f := T.linear.mulV F.lin
  ⟨T.linear.mulV F.ang + cross3 T.translation f, f⟩

/-- Modelled from the spec: external primitive `dad(V, F)`, the spatial
dual cross product used for Coriolis terms. -/
def dad (s t : V6) : V6 :=
  ⟨cross3 t.ang s.ang + cross3 t.lin s.lin, cross3 t.lin s.ang⟩

/-- Modelled from the spec: external primitive `AdInvRLinear(T, v)`,
lifting a linear 3-vector into a twist through the inverse rotation only
(used to express the gravity vector in the body frame). -/
def AdInvRLinear (T : Transform3) (v : V3) : V6 :=
  ⟨0, T.linear.transposeM.mulV v⟩

/-!  The Joint collaborator.  The joint is out of scope for the body spec;
its data (local transform cache, local Jacobian cache, generalized
coordinates, constraint impulse and velocity-change vectors) is modelled
as plain fields, and the joint-specific operations the body invokes
(recomputation of the local transform or Jacobian from coordinates, the
child bias-force reduction, the total-force fold) as abstract function
fields, modelled from the spec's list of consumed joint operations. -/

/-- The parent joint owned by a body node.  Data fields mirror the joint
state the body reads and writes; function fields stand for the hidden
joint-specific rules. -/
structure Joint where
  numGenCoords : ℕ
  configs : List ℚ
  genVels : List ℚ
  T : Transform3
  J : List V6
  localTransformOf : List ℚ → Transform3
  localJacobianOf : List ℚ → List V6
  childBiasForceContrib : Mat66 → V6 → V6 → V6
  constraintImpulses : List ℚ
  velsChange : List ℚ
  totalForceInput : V6
  totalForceTimeStep : ℚ

/-- One node of the kinematic tree, with the fields of BodyNode that the
verified operations read and write. -/
structure BodyNode where
  mass : ℚ
  com : V3
  Ixx : ℚ
  Iyy : ℚ
  Izz : ℚ
  Ixy : ℚ
  Ixz : ℚ
  Iyz : ℚ
  frictionCoeff : ℚ
  restitutionCoeff : ℚ
  gravityMode : Bool
  mI : Mat66
  W : Transform3
  V : V6
  partialAcceleration : V6
  A : V6
  F : V6
  Fext : V6
  Fgravity : V6
  artInertia : Mat66
  artInertiaImplicit : Mat66
  biasForce : V6
  delV : V6
  biasImpulse : V6
  constraintImpulse : V6
  impF : V6
  Cg_dV : V6
  Cg_F : V6
  joint : Joint

/-- A joint with no generalized coordinates and trivial rules, used to
build concrete bodies. -/
def trivialJoint : Joint where
  numGenCoords := 0
  configs := []
  genVels := []
  T := idTransform
  J := []
  localTransformOf := fun _ => idTransform
  localJacobianOf := fun _ => []
  childBiasForceContrib := fun _ _ _ => 0
  constraintImpulses := []
  velsChange := []
  totalForceInput := 0
  totalForceTimeStep := 0

/-- The state a freshly constructed body node holds: unit mass, identity
spatial inertia, zero kinematic and dynamic caches (BodyNode constructor). -/
def defaultBodyNode : BodyNode where
  mass := 1
  com := 0
  Ixx := 1
  Iyy := 1
  Izz := 1
  Ixy := 0
  Ixz := 0
  Iyz := 0
  frictionCoeff := 1
  restitutionCoeff := 0
  gravityMode := true
  mI := identity66
  W := idTransform
  V := 0
  partialAcceleration := 0
  A := 0
  F := 0
  Fext := 0
  Fgravity := 0
  artInertia := identity66
  artInertiaImplicit := identity66
  biasForce := 0
  delV := 0
  biasImpulse := 0
  constraintImpulse := 0
  impF := 0
  Cg_dV := 0
  Cg_F := 0
  joint := trivialJoint

/-!  Generalized spatial inertia (BodyNode::_updateGeralizedInertia and the
three setters that invoke it). -/

/-- The entry writes `_updateGeralizedInertia` performs on the upper
triangle of the inertia matrix; entries it does not write keep their old
value from `s.mI`. -/
def writeUpperInertia (s : BodyNode) : Mat66 :=
  let mr0 := s.mass * s.com.x
  let mr1 := s.mass * s.com.y
  let mr2 := s.mass * s.com.z
  let mr0r0 := mr0 * s.com.x
  let mr1r1 := mr1 * s.com.y
  let mr2r2 := mr2 * s.com.z
  let mr0r1 := mr0 * s.com.y
  let mr1r2 := mr1 * s.com.z
  let mr2r0 := mr2 * s.com.x
  fun i j =>
    if i = 0 ∧ j = 0 then s.Ixx + mr1r1 + mr2r2
    else if i = 1 ∧ j = 1 then s.Iyy + mr2r2 + mr0r0
    else if i = 2 ∧ j = 2 then s.Izz + mr0r0 + mr1r1
    else if i = 0 ∧ j = 1 then s.Ixy - mr0r1
    else if i = 0 ∧ j = 2 then s.Ixz - mr2r0
    else if i = 1 ∧ j = 2 then s.Iyz - mr1r2
    else if i = 1 ∧ j = 5 then -mr0
    else if i = 0 ∧ j = 5 then mr1
    else if i = 0 ∧ j = 4 then -mr2
    else if i = 2 ∧ j = 4 then mr0
    else if i = 2 ∧ j = 3 then -mr1
    else if i = 1 ∧ j = 3 then mr2
    else if i = 3 ∧ j = 3 then s.mass
    else if i = 4 ∧ j = 4 then s.mass
    else if i = 5 ∧ j = 5 then s.mass
    else s.mI i j

/-- The final mirroring step: the strictly lower triangle is overwritten
by the transpose of the matrix just written. -/
def mirrorLower (M : Mat66) : Mat66 :=
  fun i j => if (j : ℕ) < (i : ℕ) then M j i else M i j

/-- BodyNode::_updateGeralizedInertia: recompute the 6x6 generalized
spatial inertia from mass, local center of mass and the inertia tensor. -/
def updateGeneralizedInertia (s : BodyNode) : BodyNode :=
  { s with mI := mirrorLower (writeUpperInertia s) }

/-- BodyNode::setMass. -/
def setMass (m : ℚ) (s : BodyNode) : BodyNode :=
  updateGeneralizedInertia { s with mass := m }

/-- BodyNode::setInertia. -/
def setInertia (ixx iyy izz ixy ixz iyz : ℚ) (s : BodyNode) : BodyNode :=
  updateGeneralizedInertia
    { s with Ixx := ixx, Iyy := iyy, Izz := izz, Ixy := ixy, Ixz := ixz, Iyz := iyz }

/-- BodyNode::setLocalCOM. -/
def setLocalCOM (c : V3) (s : BodyNode) : BodyNode :=
  updateGeneralizedInertia { s with com := c }

/-- The entries of the inertia matrix never written by
`_updateGeralizedInertia` (the source asserts these are zero; they are
zero from construction on). -/
def staleZeros (M : Mat66) : Prop :=
  M 0 3 = 0 ∧ M 1 4 = 0 ∧ M 2 5 = 0 ∧ M 3 4 = 0 ∧ M 3 5 = 0 ∧ M 4 5 = 0

instance (M : Mat66) : Decidable (staleZeros M) := by
  unfold staleZeros; infer_instance

/-- The rotational inertia tensor assembled from the six stored
components. -/
def rotInertiaTensor (s : BodyNode) : M3 :=
  ⟨⟨s.Ixx, s.Ixy, s.Ixz⟩, ⟨s.Ixy, s.Iyy, s.Iyz⟩, ⟨s.Ixz, s.Iyz, s.Izz⟩⟩

/-- Embedding of a 3-index into the angular (top) block rows 0..2. -/
def emb0 (i : Fin 3) : Fin 6 := ⟨i.val, by omega⟩

/-- Embedding of a 3-index into the linear (bottom) block rows 3..5. -/
def emb3 (i : Fin 3) : Fin 6 := ⟨i.val + 3, by omega⟩

/-- The quadrant description of the generalized spatial inertia claimed by
the spec: symmetric; translational block mass times identity; rotational
block the inertia tensor corrected by the parallel-axis term
`- m [r][r]`; coupling block the mass-weighted cross-product matrix
`m [r]`; and the never-written entries still zero. -/
def GeneralizedInertiaSpec (s : BodyNode) : Prop :=
  (∀ i j : Fin 6, s.mI i j = s.mI j i) ∧
  (∀ i j : Fin 3, s.mI (emb3 i) (emb3 j) = if i = j then s.mass else 0) ∧
  (∀ i j : Fin 3, s.mI (emb0 i) (emb0 j) =
      (rotInertiaTensor s).entry i j
        - s.mass * ((skewM s.com).mul (skewM s.com)).entry i j) ∧
  (∀ i j : Fin 3, s.mI (emb0 i) (emb3 j) = s.mass * (skewM s.com).entry i j) ∧
  staleZeros s.mI

/-!  Kinematic propagation: BodyNode::updateTransform. -/

/-- BodyNode::updateTransform: the joint first recomputes its local
transform from the current generalized coordinates, the world transform
is the parent's world transform composed with that fresh local transform
(the local transform alone at the root), and the joint then recomputes
its local Jacobian from the current generalized coordinates. -/
def updateTransform (parentW : Option Transform3) (b : BodyNode) : BodyNode :=
  let j1 := { b.joint with T := b.joint.localTransformOf b.joint.configs }
  let w : Transform3 :=
    match parentW with
    | some pW => compT pW j1.T
    | none => j1.T
  let j2 := { j1 with J := j1.localJacobianOf j1.configs }
  { b with W := w, joint := j2 }

/-!  Scalar energy query: BodyNode::getPotentialEnergy. -/

/-- BodyNode::getPotentialEnergy: minus the mass times the dot product of
the world-frame body origin with the gravity vector. -/
def getPotentialEnergy (b : BodyNode) (gravity : V3) : ℚ :=
  -b.mass * dot3 b.W.translation gravity

/-!  External force accumulation: BodyNode::addExtForce,
BodyNode::setExtForce, BodyNode::clearExternalForces. -/

/-- The 6-dimensional wrench both setExtForce and addExtForce reduce
their arguments to: the force (rotated into the body frame when given in
world coordinates) placed in the linear slot, transported by the adjoint
wrench transform across the pure translation to the offset point
(re-expressed locally when given in world coordinates). -/
def extForceWrench (b : BodyNode) (force offset : V3)
    (isForceLocal isOffsetLocal : Bool) : V6 :=
  let t : Transform3 :=
    { linear := identityM3,
      translation := if isOffsetLocal then offset else b.W.invApply offset }
  let f : V3 :=
    if isForceLocal then force else b.W.linear.transposeM.mulV force
  dAdInvT t ⟨0, f⟩

/-- BodyNode::addExtForce: additive semantics. -/
def addExtForce (force offset : V3) (isForceLocal isOffsetLocal : Bool)
    (b : BodyNode) : BodyNode :=
  { b with Fext := b.Fext + extForceWrench b force offset isForceLocal isOffsetLocal }

/-- BodyNode::setExtForce: replace semantics. -/
def setExtForce (force offset : V3) (isForceLocal isOffsetLocal : Bool)
    (b : BodyNode) : BodyNode :=
  { b with Fext := extForceWrench b force offset isForceLocal isOffsetLocal }

/-- BodyNode::clearExternalForces: zero the accumulator. -/
def clearExternalForces (b : BodyNode) : BodyNode :=
  { b with Fext := 0 }

/-!  Impulse accumulator clearing: BodyNode::clearConstraintImpulse. -/

/-- BodyNode::clearConstraintImpulse: zero the four impulse-related
accumulators and ask the joint to zero its constraint impulses and
velocity changes (vectors of its coordinate dimension). -/
def clearConstraintImpulse (b : BodyNode) : BodyNode :=
  { b with
    delV := 0
    biasImpulse := 0
    constraintImpulse := 0
    impF := 0
    joint :=
      { b.joint with
        constraintImpulses := List.replicate b.joint.numGenCoords 0
        velsChange := List.replicate b.joint.numGenCoords 0 } }

/-!  Articulated-body dynamics pass 2: BodyNode::updateBiasForce. -/

/-- Sum of a list of spatial vectors. -/
def sumV6 : List V6 → V6
  | [] => 0
  | v :: r => v + sumV6 r

/-- BodyNode::updateBiasForce: the bias force starts from minus the
velocity-dependent gyroscopic term, minus the external-force accumulator,
minus the gravity force (zero when the gravity flag is off), then each
child's joint adds its reduction of the child's articulated inertia, bias
force and partial acceleration; finally the joint is handed
`artInertiaImplicit * partialAcceleration + biasForce` to fold into its
total generalized force. -/
def updateBiasForce (gravity : V3) (timeStep : ℚ) (children : List BodyNode)
    (b : BodyNode) : BodyNode :=
  let fg : V6 :=
    if b.gravityMode then applyI b.mI (AdInvRLinear b.W gravity) else 0
  let bias0 : V6 := -dad b.V (applyI b.mI b.V) - b.Fext - fg
  let bias : V6 := children.foldl
    (fun acc c => acc + c.joint.childBiasForceContrib
      c.artInertiaImplicit c.biasForce c.partialAcceleration) bias0
  { b with
    Fgravity := fg
    biasForce := bias
    joint :=
      { b.joint with
        totalForceInput := applyI b.artInertiaImplicit b.partialAcceleration + bias
        totalForceTimeStep := timeStep } }

/-!  Inverse-kinematics fitting operations.  When the parent joint has
coordinates, the body hands an optimization problem to the external
nonlinear solver and stores the returned optimum in the joint; the
solver's answer is modelled as an oracle argument.  Each operation also
returns the list of error messages it printed. -/

/-- The traversal policies of the inverse-kinematics fitting entry
point. -/
inductive InverseKinematicsPolicy where
  | IKP_PARENT_JOINT
  | IKP_ANCESTOR_JOINTS
  | IKP_ALL_JOINTS
deriving DecidableEq

/-- BodyNode::fitWorldLinearVel: no-op when the parent joint has zero
generalized coordinates, otherwise the solver's optimum becomes the
joint's generalized velocities. -/
def fitWorldLinearVel (_targetLinVel : V3)
    (_policy : InverseKinematicsPolicy) (_jointVelLimit : Bool)
    (solverResult : List ℚ) (b : BodyNode) : BodyNode × List String :=
  if b.joint.numGenCoords = 0 then (b, [])
  else ({ b with joint := { b.joint with genVels := solverResult } }, [])

/-- BodyNode::fitWorldAngularVel: same structure as the linear-velocity
fit. -/
def fitWorldAngularVel (_targetAngVel : V3)
    (_policy : InverseKinematicsPolicy) (_jointVelLimit : Bool)
    (solverResult : List ℚ) (b : BodyNode) : BodyNode × List String :=
  if b.joint.numGenCoords = 0 then (b, [])
  else ({ b with joint := { b.joint with genVels := solverResult } }, [])

/-- BodyNode::fitWorldTransformParentJointImpl: no-op when the parent
joint has zero generalized coordinates, otherwise the solver's optimum
becomes the joint's configuration. -/
def fitWorldTransformParentJointImpl (_target : Transform3)
    (_jointLimit : Bool) (solverResult : List ℚ) (b : BodyNode) :
    BodyNode × List String :=
  if b.joint.numGenCoords = 0 then (b, [])
  else ({ b with joint := { b.joint with configs := solverResult } }, [])

/-- BodyNode::fitWorldTransformAncestorJointsImpl: prints the
not-implemented error and changes nothing. -/
def fitWorldTransformAncestorJointsImpl (_target : Transform3)
    (_jointLimit : Bool) (b : BodyNode) : BodyNode × List String :=
  (b, ["Not implemented yet."])

/-- BodyNode::fitWorldTransformAllJointsImpl: prints the not-implemented
error and changes nothing. -/
def fitWorldTransformAllJointsImpl (_target : Transform3)
    (_jointLimit : Bool) (b : BodyNode) : BodyNode × List String :=
  (b, ["Not implemented yet."])

/-- BodyNode::fitWorldTransform: dispatch on the traversal policy. -/
def fitWorldTransform (target : Transform3)
    (policy : InverseKinematicsPolicy) (jointLimit : Bool)
    (solverResult : List ℚ) (b : BodyNode) : BodyNode × List String :=
  match policy with
  | .IKP_PARENT_JOINT => fitWorldTransformParentJointImpl target jointLimit solverResult b
  | .IKP_ANCESTOR_JOINTS => fitWorldTransformAncestorJointsImpl target jointLimit b
  | .IKP_ALL_JOINTS => fitWorldTransformAllJointsImpl target jointLimit b

/-!  Dependent generalized-coordinate index list, built in
BodyNode::init: the parent's list (empty at the root) is extended by the
body's own joint's skeleton indices and then sorted.  std::sort is
modelled by insertion sort; on a list of naturals any comparison sort
produces the same (unique) sorted permutation. -/

/-- The dependent-coordinate list BodyNode::init computes: parent's list
(or empty at the root), extended by the parent joint's coordinate
indices, then sorted ascending. -/
def initDependentGenCoordIndices (parentIndices : Option (List ℕ))
    (jointCoordIndices : List ℕ) : List ℕ :=
  List.insertionSort (· ≤ ·)
    ((match parentIndices with | some l => l | none => []) ++ jointCoordIndices)

/-!  Destruction: BodyNode::~BodyNode frees every visual shape, every
collision shape not already present in the visual list, every marker, and
the parent joint. -/

/-- A record of one resource freed by the destructor. -/
inductive Freed where
  | shape (h : ℕ)
  | marker (h : ℕ)
  | joint
deriving DecidableEq

/-- The sequence of resources freed by the BodyNode destructor, in
program order: visual shapes, collision shapes that do not occur in the
visual list, markers, the parent joint. -/
def destructorFrees (vizShapes colShapes markers : List ℕ) : List Freed :=
  vizShapes.map Freed.shape
    ++ (colShapes.filter (fun s => decide (s ∉ vizShapes))).map Freed.shape
    ++ markers.map Freed.marker
    ++ [Freed.joint]

/-!  Coriolis/centrifugal force aggregation.  The body operations
updateCombinedVector and aggregateCombinedVector are lifted to a whole
kinematic subtree; the tree-owner traversal (modelled from the spec: the
skeleton walks bodies top-down for the update pass and bottom-up for the
aggregate pass) becomes structural recursion over the tree.  The
aggregated per-coordinate segment each body writes into the system-wide
vector is collected instead of written in place. -/

mutual

/-- A kinematic subtree: one body node and the subtrees of its
children. -/
inductive KTree where
  | node : BodyNode → KForest → KTree

/-- The ordered children of a body node. -/
inductive KForest where
  | fnil : KForest
  | fcons : KTree → KForest → KForest
end

/-- The body at the root of a subtree. -/
def KTree.body : KTree → BodyNode
  | .node b _ => b

mutual

/-- BodyNode::updateCombinedVector over a subtree (root-to-leaf pass):
with a parent, the combined-vector acceleration is the parent's value
transported across the joint's local transform plus the body's partial
acceleration, at the root it is the partial acceleration alone. -/
def updateCombinedVectorTree : Option V6 → KTree → KTree
  | none, .node b cs =>
    .node { b with Cg_dV := b.partialAcceleration }
      (updateCombinedVectorForest b.partialAcceleration cs)
  | some p, .node b cs =>
    let dV := AdInvT b.joint.T p + b.partialAcceleration
    .node { b with Cg_dV := dV } (updateCombinedVectorForest dV cs)

/-- The same pass continued over a list of children whose parent has the
given combined-vector acceleration. -/
def updateCombinedVectorForest (dV : V6) : KForest → KForest
  | .fnil => .fnil
  | .fcons t r =>
    .fcons (updateCombinedVectorTree (some dV) t)
      (updateCombinedVectorForest dV r)
end

/-- The sum of the children's combined-vector forces, each transported
across the child's joint transform — the loop body of
BodyNode::aggregateCombinedVector. -/
def childCgSum : KForest → V6
  | .fnil => 0
  | .fcons t r => dAdInvT t.body.joint.T t.body.Cg_F + childCgSum r

mutual

/-- BodyNode::aggregateCombinedVector over a subtree (leaf-to-root pass):
each body's combined-vector force is its inertia times its combined
acceleration, minus the gravity force (zero when the gravity flag is
off), minus the velocity-dependent gyroscopic term, plus the transported
combined forces of its children. -/
def aggregateCombinedVectorTree (gravity : V3) : KTree → KTree
  | .node b cs =>
    let cs' := aggregateCombinedVectorForest gravity cs
    let fg : V6 :=
      if b.gravityMode then applyI b.mI (AdInvRLinear b.W gravity) else 0
    let f : V6 :=
      applyI b.mI b.Cg_dV - fg - dad b.V (applyI b.mI b.V) + childCgSum cs'
    .node { b with Fgravity := fg, Cg_F := f } cs'

/-- The aggregate pass over a list of children. -/
def aggregateCombinedVectorForest (gravity : V3) : KForest → KForest
  | .fnil => .fnil
  | .fcons t r =>
    .fcons (aggregateCombinedVectorTree gravity t)
      (aggregateCombinedVectorForest gravity r)
end

/-- BodyNode::aggregateCoriolisForceVector: the combined-vector aggregate
pass run with a zero gravity argument. -/
def aggregateCoriolisForceVectorTree : KTree → KTree :=
  aggregateCombinedVectorTree 0

mutual

/-- The per-coordinate segments each body writes into the system-wide
vector: the local Jacobian transpose applied to the body's aggregated
combined-vector force (empty for a zero-coordinate joint). -/
def segmentsOfTree : KTree → List (List ℚ)
  | .node b cs => b.joint.J.map (fun c => dot6 c b.Cg_F) :: segmentsOfForest cs

/-- The segments of all bodies of a forest. -/
def segmentsOfForest : KForest → List (List ℚ)
  | .fnil => []
  | .fcons t r => segmentsOfTree t ++ segmentsOfForest r
end

mutual

/-- Every body in the subtree has zero spatial velocity, zero partial
acceleration and zero external force. -/
def AllZeroVelTree : KTree → Prop
  | .node b cs =>
    (b.V = 0 ∧ b.partialAcceleration = 0 ∧ b.Fext = 0) ∧ AllZeroVelForest cs

/-- The same condition over a forest. -/
def AllZeroVelForest : KForest → Prop
  | .fnil => True
  | .fcons t r => AllZeroVelTree t ∧ AllZeroVelForest r
end

mutual

/-- Every body in the subtree has a zero aggregated combined-vector
force. -/
def AllCgFZeroTree : KTree → Prop
  | .node b cs => b.Cg_F = 0 ∧ AllCgFZeroForest cs

/-- The same condition over a forest. -/
def AllCgFZeroForest : KForest → Prop
  | .fnil => True
  | .fcons t r => AllCgFZeroTree t ∧ AllCgFZeroForest r
end

/-- A two-body chain with zero velocities, one coordinate per joint. -/
def c5TestBody : BodyNode :=
  { defaultBodyNode with
    joint := { trivialJoint with numGenCoords := 1, J := [⟨⟨1, 0, 0⟩, 0⟩] } }

/-- The two-body test chain for the Coriolis-vector scenario. -/
def c5TestTree : KTree :=
  .node c5TestBody (.fcons (.node c5TestBody .fnil) .fnil)

@[simp] theorem V3.zero_x : (0 : V3).x = 0 := rfl

@[simp] theorem V3.zero_y : (0 : V3).y = 0 := rfl

@[simp] theorem V3.zero_z : (0 : V3).z = 0 := rfl

@[simp] theorem V3.add_x (a b : V3) : (a + b).x = a.x + b.x := rfl

@[simp] theorem V3.add_y (a b : V3) : (a + b).y = a.y + b.y := rfl

@[simp] theorem V3.add_z (a b : V3) : (a + b).z = a.z + b.z := rfl

@[simp] theorem V3.neg_x (a : V3) : (-a).x = -a.x := rfl

@[simp] theorem V3.neg_y (a : V3) : (-a).y = -a.y := rfl

@[simp] theorem V3.neg_z (a : V3) : (-a).z = -a.z := rfl

@[simp] theorem V3.sub_x (a b : V3) : (a - b).x = a.x - b.x := rfl

@[simp] theorem V3.sub_y (a b : V3) : (a - b).y = a.y - b.y := rfl

@[simp] theorem V3.sub_z (a b : V3) : (a - b).z = a.z - b.z := rfl

@[simp] theorem cross3_zero_left (b : V3) : cross3 0 b = 0 := by
  ext <;> simp [cross3]

@[simp] theorem cross3_zero_right (a : V3) : cross3 a 0 = 0 := by
  ext <;> simp [cross3]

@[simp] theorem M3.mulV_zero (A : M3) : A.mulV 0 = 0 := by
  ext <;> simp [M3.mulV, dot3]

@[simp] theorem V6.zero_ang : (0 : V6).ang = 0 := rfl

@[simp] theorem V6.zero_lin : (0 : V6).lin = 0 := rfl

@[simp] theorem V6.add_ang (a b : V6) : (a + b).ang = a.ang + b.ang := rfl

@[simp] theorem V6.add_lin (a b : V6) : (a + b).lin = a.lin + b.lin := rfl

@[simp] theorem V6.neg_ang (a : V6) : (-a).ang = -a.ang := rfl

@[simp] theorem V6.neg_lin (a : V6) : (-a).lin = -a.lin := rfl

@[simp] theorem V6.sub_ang (a b : V6) : (a - b).ang = a.ang - b.ang := rfl

@[simp] theorem V6.sub_lin (a b : V6) : (a - b).lin = a.lin - b.lin := rfl

@[simp] theorem V6.add_zero (a : V6) : a + 0 = a := by
  ext <;> simp

@[simp] theorem V6.zero_add (a : V6) : 0 + a = a := by
  ext <;> simp

@[simp] theorem V6.sub_zero (a : V6) : a - 0 = a := by
  ext <;> simp

@[simp] theorem dot6_zero_right (a : V6) : dot6 a 0 = 0 := by
  simp [dot6, dot3]

@[simp] theorem applyI_zero (A : Mat66) : applyI A 0 = 0 := by
  ext <;> simp [applyI, V6.nth]

@[simp] theorem AdInvT_zero (T : Transform3) : AdInvT T 0 = 0 := by
  ext <;> simp [AdInvT, M3.mulV, dot3]

@[simp] theorem dAdInvT_zero (T : Transform3) : dAdInvT T 0 = 0 := by
  ext <;> simp [dAdInvT]

@[simp] theorem dad_zero_right (s : V6) : dad s 0 = 0 := by
  ext <;> simp [dad]

@[simp] theorem AdInvRLinear_zero (T : Transform3) : AdInvRLinear T 0 = 0 := by
  ext <;> simp [AdInvRLinear]

theorem V6.add_assoc (a b c : V6) : a + b + c = a + (b + c) := by
  ext <;> simp <;> ring

theorem updateGeneralizedInertia_spec (s : BodyNode) (h : staleZeros s.mI) :
    GeneralizedInertiaSpec (updateGeneralizedInertia s) := by
  obtain ⟨h03, h14, h25, h34, h35, h45⟩ := h
  refine ⟨?_, ?_, ?_, ?_, ?_, ?_, ?_, ?_, ?_, ?_⟩
  · intro i j
    fin_cases i <;> fin_cases j <;>
      simp +decide [updateGeneralizedInertia, mirrorLower, writeUpperInertia]
  · intro i j
    fin_cases i <;> fin_cases j <;>
      simp +decide [updateGeneralizedInertia, mirrorLower, writeUpperInertia,
        emb0, emb3, h34, h35, h45]
  · intro i j
    fin_cases i <;> fin_cases j <;>
      simp +decide [updateGeneralizedInertia, mirrorLower, writeUpperInertia,
        emb0, emb3, rotInertiaTensor, skewM, M3.mul, M3.entry, M3.row, M3.mulV,
        M3.transposeM, V3.nth, dot3] <;> ring
  · intro i j
    fin_cases i <;> fin_cases j <;>
      simp +decide [updateGeneralizedInertia, mirrorLower, writeUpperInertia,
        emb0, emb3, skewM, M3.entry, M3.row, V3.nth, h03, h14, h25]
  all_goals
    simp +decide [updateGeneralizedInertia, mirrorLower, writeUpperInertia,
      h03, h14, h25, h34, h35, h45]

/-- Claim C1: for every body and every input with mass at least zero, any
center-of-mass offset, and any inertia tensor with non-negative diagonal,
after any of setMass, setInertia, or setLocalCOM the 6x6 generalized
spatial inertia matrix is symmetric, its bottom-right translational block
equals mass times the identity, its top-left block is the rotational
inertia corrected by the mass-weighted parallel-axis term, and its
coupling block is the mass-weighted center-of-mass cross-product matrix. -/
theorem c1_generalized_inertia_quadrants (s : BodyNode) (m : ℚ) (c : V3)
    (ixx iyy izz ixy ixz iyz : ℚ)
    (_hm : 0 ≤ m) (_hsm : 0 ≤ s.mass)
    (_hxx : 0 ≤ ixx) (_hyy : 0 ≤ iyy) (_hzz : 0 ≤ izz)
    (_hsxx : 0 ≤ s.Ixx) (_hsyy : 0 ≤ s.Iyy) (_hszz : 0 ≤ s.Izz)
    (h : staleZeros s.mI) :
    GeneralizedInertiaSpec (setMass m s) ∧
    GeneralizedInertiaSpec (setInertia ixx iyy izz ixy ixz iyz s) ∧
    GeneralizedInertiaSpec (setLocalCOM c s) :=
  ⟨updateGeneralizedInertia_spec _ h, updateGeneralizedInertia_spec _ h,
   updateGeneralizedInertia_spec _ h⟩

theorem c1_generalized_inertia_quadrants_witness :
    GeneralizedInertiaSpec (setMass 2 defaultBodyNode) ∧
    GeneralizedInertiaSpec (setInertia 4 5 6 1 1 1 defaultBodyNode) ∧
    GeneralizedInertiaSpec (setLocalCOM ⟨1, 2, 3⟩ defaultBodyNode) :=
  c1_generalized_inertia_quadrants defaultBodyNode 2 ⟨1, 2, 3⟩ 4 5 6 1 1 1
    (by decide) (by decide) (by decide) (by decide) (by decide)
    (by decide) (by decide) (by decide) (by decide)

/-- Claim C4: updateTransform sets the world transform to the parent's
world transform composed with the joint's freshly recomputed local
transform when a parent exists, and to the local transform alone at the
root; the joint's cached local transform and local Jacobian are both
recomputed from the current generalized coordinates during the call, so
the result never depends on the stale cached values. -/
theorem c4_update_transform (b : BodyNode) (pW : Transform3)
    (p : Option Transform3) :
    (updateTransform (some pW) b).W
        = compT pW (b.joint.localTransformOf b.joint.configs) ∧
    (updateTransform none b).W = b.joint.localTransformOf b.joint.configs ∧
    (updateTransform p b).joint.T = b.joint.localTransformOf b.joint.configs ∧
    (updateTransform p b).joint.J = b.joint.localJacobianOf b.joint.configs ∧
    (∀ staleT : Transform3, ∀ staleJ : List V6,
      updateTransform p { b with joint := { b.joint with T := staleT, J := staleJ } }
        = updateTransform p b) := by
  refine ⟨rfl, rfl, ?_, ?_, ?_⟩
  · cases p <;> rfl
  · cases p <;> rfl
  · intro staleT staleJ
    cases p <;> rfl

/-- Claim C10: for every body and every gravity 3-vector,
getPotentialEnergy returns minus the mass times the dot product of the
world transform's translation with the gravity vector, and the result
does not depend on the body's center-of-mass offset. -/
theorem c10_potential_energy (b : BodyNode) (gravity : V3) :
    getPotentialEnergy b gravity = -b.mass * dot3 b.W.translation gravity ∧
    (∀ c : V3, getPotentialEnergy (setLocalCOM c b) gravity
        = getPotentialEnergy b gravity) :=
  ⟨rfl, fun _ => rfl⟩

/-- Claim C7: for every force, offset and frame-flag choice, setExtForce
sets the external-force accumulator to the single adjoint-reduced wrench
determined by those arguments, addExtForce adds exactly the same wrench
to the current accumulator, and clearExternalForces followed by
addExtForce leaves the accumulator equal to what setExtForce with the
same arguments produces. -/
theorem c7_ext_force_semantics (b : BodyNode) (force offset : V3)
    (isForceLocal isOffsetLocal : Bool) :
    (setExtForce force offset isForceLocal isOffsetLocal b).Fext
        = extForceWrench b force offset isForceLocal isOffsetLocal ∧
    (addExtForce force offset isForceLocal isOffsetLocal b).Fext
        = b.Fext + extForceWrench b force offset isForceLocal isOffsetLocal ∧
    (addExtForce force offset isForceLocal isOffsetLocal
        (clearExternalForces b)).Fext
        = (setExtForce force offset isForceLocal isOffsetLocal b).Fext := by
  refine ⟨rfl, rfl, ?_⟩
  show (0 : V6) + _ = _
  rw [V6.zero_add]
  rfl

/-- Claim C6: after clearConstraintImpulse, the velocity-change, bias
impulse, constraint-impulse, and impulse-force accumulators are the zero
6-vector, and the parent joint's constraint impulses and velocity changes
are zero vectors of its coordinate dimension. -/
theorem c6_clear_constraint_impulse (b : BodyNode) :
    (clearConstraintImpulse b).delV = 0 ∧
    (clearConstraintImpulse b).biasImpulse = 0 ∧
    (clearConstraintImpulse b).constraintImpulse = 0 ∧
    (clearConstraintImpulse b).impF = 0 ∧
    (clearConstraintImpulse b).joint.constraintImpulses
        = List.replicate b.joint.numGenCoords 0 ∧
    (clearConstraintImpulse b).joint.velsChange
        = List.replicate b.joint.numGenCoords 0 :=
  ⟨rfl, rfl, rfl, rfl, rfl, rfl⟩

theorem foldl_add_sumV6 {α : Type} (f : α → V6) (init : V6) :
    ∀ l : List α,
      l.foldl (fun acc c => acc + f c) init = init + sumV6 (l.map f)
  | [] => by simp [sumV6, V6.add_zero]
  | a :: r => by
    rw [List.foldl_cons, foldl_add_sumV6 f (init + f a) r, List.map_cons]
    show _ = init + (f a + sumV6 (r.map f))
    rw [V6.add_assoc]

/-- Claim C3: updateBiasForce sets the bias force to minus the
velocity-dependent Coriolis/gyroscopic term, minus the external-force
accumulator, minus the gravity force (zero when the gravity flag is off),
plus the sum over children of each child's bias force reduced through the
child's joint using the child's articulated inertia and partial
acceleration; the body's own joint is then asked to fold the total
`artInertiaImplicit * partialAcceleration + biasForce` into its
generalized force. -/
theorem c3_update_bias_force (gravity : V3) (timeStep : ℚ)
    (children : List BodyNode) (b : BodyNode) :
    (updateBiasForce gravity timeStep children b).biasForce
        = -dad b.V (applyI b.mI b.V) - b.Fext
          - (if b.gravityMode then applyI b.mI (AdInvRLinear b.W gravity) else 0)
          + sumV6 (children.map (fun c => c.joint.childBiasForceContrib
              c.artInertiaImplicit c.biasForce c.partialAcceleration)) ∧
    (updateBiasForce gravity timeStep children b).joint.totalForceInput
        = applyI b.artInertiaImplicit b.partialAcceleration
          + (updateBiasForce gravity timeStep children b).biasForce ∧
    (updateBiasForce gravity timeStep children b).joint.totalForceTimeStep
        = timeStep ∧
    (updateBiasForce gravity timeStep children b).Fgravity
        = (if b.gravityMode then applyI b.mI (AdInvRLinear b.W gravity) else 0) :=
  ⟨foldl_add_sumV6 _ _ children, rfl, rfl, rfl⟩

/-- Claim C8: for every body whose parent joint has zero generalized
coordinates, fitWorldLinearVel, fitWorldAngularVel and fitWorldTransform
with the parent-joint policy return without modifying any state and
without reporting an error, while fitWorldTransform with the
ancestor-joints or all-joints policy leaves the state unchanged but
reports the not-implemented error instead of staying silent. -/
theorem c8_fit_zero_dof_noop (b : BodyNode) (v w : V3) (tgt : Transform3)
    (pol : InverseKinematicsPolicy) (lim : Bool) (sol : List ℚ)
    (h : b.joint.numGenCoords = 0) :
    fitWorldLinearVel v pol lim sol b = (b, []) ∧
    fitWorldAngularVel w pol lim sol b = (b, []) ∧
    fitWorldTransform tgt .IKP_PARENT_JOINT lim sol b = (b, []) ∧
    (∀ b' : BodyNode, ∀ tgt' : Transform3, ∀ lim' : Bool, ∀ sol' : List ℚ,
      fitWorldTransform tgt' .IKP_ANCESTOR_JOINTS lim' sol' b'
          = (b', ["Not implemented yet."]) ∧
      fitWorldTransform tgt' .IKP_ALL_JOINTS lim' sol' b'
          = (b', ["Not implemented yet."])) := by
  refine ⟨?_, ?_, ?_, fun b' tgt' lim' sol' => ⟨rfl, rfl⟩⟩ <;>
    simp [fitWorldLinearVel, fitWorldAngularVel, fitWorldTransform,
      fitWorldTransformParentJointImpl, h]

theorem c8_fit_zero_dof_noop_witness :
    fitWorldLinearVel 0 .IKP_PARENT_JOINT true [] defaultBodyNode
        = (defaultBodyNode, []) ∧
    fitWorldAngularVel 0 .IKP_PARENT_JOINT true [] defaultBodyNode
        = (defaultBodyNode, []) ∧
    fitWorldTransform idTransform .IKP_PARENT_JOINT true [] defaultBodyNode
        = (defaultBodyNode, []) ∧
    (∀ b' : BodyNode, ∀ tgt' : Transform3, ∀ lim' : Bool, ∀ sol' : List ℚ,
      fitWorldTransform tgt' .IKP_ANCESTOR_JOINTS lim' sol' b'
          = (b', ["Not implemented yet."]) ∧
      fitWorldTransform tgt' .IKP_ALL_JOINTS lim' sol' b'
          = (b', ["Not implemented yet."])) :=
  c8_fit_zero_dof_noop defaultBodyNode 0 0 idTransform .IKP_PARENT_JOINT
    true [] rfl

/-- Claim C2: after the one-time init pass (which hands every joint
skeleton indices larger than all of its ancestors' indices), a non-root
body's dependent-coordinate list is exactly its parent's list extended by
its own joint's coordinate indices, sorted strictly ascending with no
duplicates; the root's list is exactly its own joint's coordinate
indices sorted ascending. -/
theorem c2_dependent_gen_coord_indices (pl own : List ℕ)
    (hp : List.Sorted (· < ·) pl) (ho : List.Sorted (· < ·) own)
    (hlt : ∀ a ∈ pl, ∀ b ∈ own, a < b) :
    initDependentGenCoordIndices (some pl) own = pl ++ own ∧
    List.Sorted (· < ·) (initDependentGenCoordIndices (some pl) own) ∧
    (initDependentGenCoordIndices (some pl) own).Nodup ∧
    initDependentGenCoordIndices none own = own := by
  have hso : List.Sorted (· < ·) (pl ++ own) := by
    rw [List.Sorted, List.pairwise_append]
    exact ⟨hp, ho, hlt⟩
  have hle : List.Sorted (· ≤ ·) (pl ++ own) := hso.imp le_of_lt
  have heq : initDependentGenCoordIndices (some pl) own = pl ++ own := by
    simpa [initDependentGenCoordIndices] using hle.insertionSort_eq
  have hleo : List.Sorted (· ≤ ·) own := ho.imp le_of_lt
  have hroot : initDependentGenCoordIndices none own = own := by
    simpa [initDependentGenCoordIndices] using hleo.insertionSort_eq
  exact ⟨heq, heq ▸ hso, heq ▸ hso.nodup, hroot⟩

theorem c2_dependent_gen_coord_indices_witness :
    initDependentGenCoordIndices (some [0, 2]) [3, 5] = [0, 2] ++ [3, 5] ∧
    List.Sorted (· < ·) (initDependentGenCoordIndices (some [0, 2]) [3, 5]) ∧
    (initDependentGenCoordIndices (some [0, 2]) [3, 5]).Nodup ∧
    initDependentGenCoordIndices none [3, 5] = [3, 5] :=
  c2_dependent_gen_coord_indices [0, 2] [3, 5] (by decide) (by decide)
    (by decide)

/-- Claim C9: when a body is destroyed, every distinct shape handle in
its visual or collision list is freed exactly once (shared handles once,
none twice), provided neither list contains internal duplicates; the
joint and all markers are freed as well. -/
theorem c9_destructor_frees_once (viz col markers : List ℕ)
    (hv : viz.Nodup) (hc : col.Nodup) :
    (∀ s : ℕ, s ∈ viz ∨ s ∈ col →
      (destructorFrees viz col markers).count (Freed.shape s) = 1) ∧
    (∀ m ∈ markers, Freed.marker m ∈ destructorFrees viz col markers) ∧
    Freed.joint ∈ destructorFrees viz col markers := by
  have hinj : Function.Injective Freed.shape := fun a b h => by
    injection h
  refine ⟨?_, ?_, ?_⟩
  · intro s hs
    have hmk : (markers.map Freed.marker).count (Freed.shape s) = 0 := by
      refine List.count_eq_zero_of_not_mem ?_
      simp
    have hjt : ([Freed.joint]).count (Freed.shape s) = 0 := by
      refine List.count_eq_zero_of_not_mem ?_
      simp
    by_cases hsv : s ∈ viz
    · have h1 : (viz.map Freed.shape).count (Freed.shape s) = 1 := by
        rw [List.count_map_of_injective _ _ hinj]
        exact List.count_eq_one_of_mem hv hsv
      have h2 : ((col.filter (fun s => decide (s ∉ viz))).map Freed.shape).count
          (Freed.shape s) = 0 := by
        rw [List.count_map_of_injective _ _ hinj]
        refine List.count_eq_zero_of_not_mem ?_
        simp [List.mem_filter, hsv]
      unfold destructorFrees
      rw [List.count_append, List.count_append, List.count_append,
        h1, h2, hmk, hjt]
    · have hsc : s ∈ col := hs.resolve_left hsv
      have h1 : (viz.map Freed.shape).count (Freed.shape s) = 0 := by
        rw [List.count_map_of_injective _ _ hinj]
        exact List.count_eq_zero_of_not_mem hsv
      have h2 : ((col.filter (fun s => decide (s ∉ viz))).map Freed.shape).count
          (Freed.shape s) = 1 := by
        rw [List.count_map_of_injective _ _ hinj]
        rw [List.count_filter (by simpa using hsv)]
        exact List.count_eq_one_of_mem hc hsc
      unfold destructorFrees
      rw [List.count_append, List.count_append, List.count_append,
        h1, h2, hmk, hjt]
  · intro m hm
    simp [destructorFrees]
    tauto
  · simp [destructorFrees]

mutual
theorem combined_zero_tree : ∀ t : KTree, AllZeroVelTree t →
    ∀ pdV : Option V6, pdV = none ∨ pdV = some 0 →
      AllCgFZeroTree (aggregateCombinedVectorTree 0 (updateCombinedVectorTree pdV t)) ∧
      (aggregateCombinedVectorTree 0 (updateCombinedVectorTree pdV t)).body.Cg_F = 0
  | .node b cs, hz, pdV, hp => by
    obtain ⟨⟨hV, hpa, _⟩, hzf⟩ := hz
    have hf := combined_zero_forest cs hzf
    rcases hp with rfl | rfl <;>
      simp [updateCombinedVectorTree, aggregateCombinedVectorTree,
        AllCgFZeroTree, KTree.body, hpa, hV, hf.1, hf.2]

theorem combined_zero_forest : ∀ f : KForest, AllZeroVelForest f →
    AllCgFZeroForest (aggregateCombinedVectorForest 0 (updateCombinedVectorForest 0 f)) ∧
    childCgSum (aggregateCombinedVectorForest 0 (updateCombinedVectorForest 0 f)) = 0
  | .fnil, _ => by
    simp [updateCombinedVectorForest, aggregateCombinedVectorForest,
      AllCgFZeroForest, childCgSum]
  | .fcons t r, hz => by
    have ht := combined_zero_tree t hz.1 (some 0) (Or.inr rfl)
    have hr := combined_zero_forest r hz.2
    simp [updateCombinedVectorForest, aggregateCombinedVectorForest,
      AllCgFZeroForest, childCgSum, ht.1, ht.2, hr.1, hr.2]
end

mutual
theorem segments_zero_tree : ∀ t : KTree, AllCgFZeroTree t →
    ∀ seg ∈ segmentsOfTree t, ∀ x ∈ seg, x = 0
  | .node b cs, h, seg, hseg, x, hx => by
    rcases List.mem_cons.mp hseg with rfl | hmem
    · obtain ⟨c, _, rfl⟩ := List.mem_map.mp hx
      rw [h.1]
      exact dot6_zero_right c
    · exact segments_zero_forest cs h.2 seg hmem x hx

theorem segments_zero_forest : ∀ f : KForest, AllCgFZeroForest f →
    ∀ seg ∈ segmentsOfForest f, ∀ x ∈ seg, x = 0
  | .fcons t r, h, seg, hseg, x, hx => by
    rcases List.mem_append.mp hseg with hl | hrr
    · exact segments_zero_tree t h.1 seg hl x hx
    · exact segments_zero_forest r h.2 seg hrr x hx
end

/-- Claim C5: the system-wide Coriolis/centrifugal vector is the general
combined-vector recursion run with gravity zero, and for any tree whose
bodies all have zero spatial velocity, zero partial acceleration and zero
external force, every generalized-coordinate segment it writes is the
zero vector. -/
theorem c5_coriolis_vector_zero :
    (∀ t : KTree,
      aggregateCoriolisForceVectorTree t = aggregateCombinedVectorTree 0 t) ∧
    (∀ t : KTree, AllZeroVelTree t →
      ∀ seg ∈ segmentsOfTree
        (aggregateCoriolisForceVectorTree (updateCombinedVectorTree none t)),
        ∀ x ∈ seg, x = 0) := by
  refine ⟨fun _ => rfl, fun t hz => ?_⟩
  exact segments_zero_tree _ (combined_zero_tree t hz none (Or.inl rfl)).1

theorem c5_coriolis_vector_zero_witness :
    AllZeroVelTree c5TestTree ∧
    ∀ seg ∈ segmentsOfTree
      (aggregateCoriolisForceVectorTree (updateCombinedVectorTree none c5TestTree)),
      ∀ x ∈ seg, x = 0 :=
  ⟨by simp [c5TestTree, c5TestBody, defaultBodyNode, AllZeroVelTree,
      AllZeroVelForest],
   c5_coriolis_vector_zero.2 c5TestTree
    (by simp [c5TestTree, c5TestBody, defaultBodyNode, AllZeroVelTree,
      AllZeroVelForest])⟩

theorem c9_destructor_frees_once_witness :
    (∀ s : ℕ, s ∈ [1, 2] ∨ s ∈ [2, 3] →
      (destructorFrees [1, 2] [2, 3] [7]).count (Freed.shape s) = 1) ∧
    (∀ m ∈ [7], Freed.marker m ∈ destructorFrees [1, 2] [2, 3] [7]) ∧
    Freed.joint ∈ destructorFrees [1, 2] [2, 3] [7] :=
  c9_destructor_frees_once [1, 2] [2, 3] [7] (by decide) (by decide)

end Dart
